import Mathlib

/-!
Verification development for the question-segmentation engine of
`backend/services/document_processor.py` (class `DocumentProcessor`).

The Python code is shallowly embedded: PDF pages are records of text spans
(with top-`y` positions) plus a page height; float coordinates are modelled
as rationals; the six boundary regular expressions are embedded as explicit
prefix matchers with Python `re` greedy/backtracking semantics; the
filesystem touched by `_create_question_pdf` is an abstract state threaded
through the orchestrator loop, with PyMuPDF operations that may raise
modelled as explicit outcome oracles.  All definitions are executable.
-/

/-- ASCII decimal digit, the `\d` class on the texts handled here. -/
def isAsciiDigit (c : Char) : Bool := '0' ≤ c && c ≤ '9'

/-- Python `\s` class (ASCII): space, tab, newline, carriage return,
vertical tab, form feed. -/
def isPySpace (c : Char) : Bool :=
  c = ' ' || c = '\t' || c = '\n' || c = '\r' || c = '\x0b' || c = '\x0c'

/-- ASCII letter: what `[A-Z]` matches under `re.IGNORECASE`. -/
def isAsciiAlpha (c : Char) : Bool :=
  ('A' ≤ c && c ≤ 'Z') || ('a' ≤ c && c ≤ 'z')

/-- Case-insensitive character comparison, as used by `re.IGNORECASE`. -/
def ciEq (a b : Char) : Bool := a.toLower = b.toLower

/-- Match a literal case-insensitively at the head of `s`; return the rest. -/
def dropCI : List Char → List Char → Option (List Char)
  | [], s => some s
  | _ :: _, [] => none
  | c :: lit, d :: s => if ciEq c d then dropCI lit s else none

/-- Python `str.strip()` restricted to ASCII whitespace. -/
def pyStrip (l : List Char) : List Char :=
  ((l.dropWhile isPySpace).reverse.dropWhile isPySpace).reverse

/-- Value of a digit string, as Python `int` on a `\d+` capture. -/
def natOfDigits (l : List Char) : Nat :=
  l.foldl (fun n c => 10 * n + (c.toNat - '0'.toNat)) 0

/-! ## The six boundary patterns of `DocumentProcessor.__init__`

Each matcher embeds one anchored regex from `self.question_patterns`,
applied with `re.match(pattern, text, re.IGNORECASE)`.  A trailing `\s*`
or optional `[\.\):]?` never affects acceptance, so it is dropped; the
returned value is capture group 1.  Backtracking is resolved statically:
in every pattern the construct following an optional/greedy piece cannot
match a character that piece consumed, so greedy matching is exact. -/

/-- Pattern `^(\d+)[\.\)]\s*` : digits then a dot or closing parenthesis. -/
def pat1 (s : List Char) : Option (List Char) :=
  let p := s.span isAsciiDigit
  match p.1, p.2 with
  | [], _ => none
  | ds, c :: _ => if c = '.' || c = ')' then some ds else none
  | _, [] => none

/-- Pattern `^Q\.?\s*(\d+)[\.\):]?\s*` : `Q`, optional dot, spaces, digits. -/
def pat2 (s : List Char) : Option (List Char) :=
  match dropCI ['q'] s with
  | none => none
  | some r =>
    let r1 := match r with | '.' :: t => t | _ => r
    let r2 := r1.dropWhile isPySpace
    let ds := r2.takeWhile isAsciiDigit
    if ds.isEmpty then none else some ds

/-- Pattern `^Question\s*(\d+)[\.\):]?\s*`. -/
def pat3 (s : List Char) : Option (List Char) :=
  match dropCI "question".toList s with
  | none => none
  | some r =>
    let r2 := r.dropWhile isPySpace
    let ds := r2.takeWhile isAsciiDigit
    if ds.isEmpty then none else some ds

/-- Pattern `^Problem\s*(\d+)[\.\):]?\s*`. -/
def pat4 (s : List Char) : Option (List Char) :=
  match dropCI "problem".toList s with
  | none => none
  | some r =>
    let r2 := r.dropWhile isPySpace
    let ds := r2.takeWhile isAsciiDigit
    if ds.isEmpty then none else some ds

/-- Pattern `^\[(\d+)\]` : bracketed digits. -/
def pat5 (s : List Char) : Option (List Char) :=
  match s with
  | '[' :: t =>
    let p := t.span isAsciiDigit
    match p.1, p.2 with
    | [], _ => none
    | ds, ']' :: _ => some ds
    | _, _ => none
  | _ => none

/-- Pattern `^Part\s*([A-Z]|\d+)[\.\):]?\s*` : the alternation tries the single
letter first (case-insensitive), then a digit run. -/
def pat6 (s : List Char) : Option (List Char) :=
  match dropCI "part".toList s with
  | none => none
  | some r =>
    let r2 := r.dropWhile isPySpace
    match r2 with
    | [] => none
    | c :: _ =>
      if isAsciiAlpha c then some [c]
      else
        let ds := r2.takeWhile isAsciiDigit
        if ds.isEmpty then none else some ds

/-- The regex sources of `self.question_patterns`, in declaration order;
kept verbatim so a `QuestionMatch` can record `pattern_used`. -/
def questionPatternSrc : List String :=
  ["^(\\d+)[\\.\\)]\\s*",
   "^Q\\.?\\s*(\\d+)[\\.\\):]?\\s*",
   "^Question\\s*(\\d+)[\\.\\):]?\\s*",
   "^Problem\\s*(\\d+)[\\.\\):]?\\s*",
   "^\\[(\\d+)\\]",
   "^Part\\s*([A-Z]|\\d+)[\\.\\):]?\\s*"]

/-- The matchers, in the same order as `questionPatternSrc`. -/
def patMatchers : List (List Char → Option (List Char)) :=
  [pat1, pat2, pat3, pat4, pat5, pat6]

/-- The inner `for pattern in self.question_patterns` loop with its
`break`: try matchers from position `i` on, return the first hit
(index and capture group). -/
def firstAux : Nat → List (List Char → Option (List Char)) → List Char →
    Option (Nat × List Char)
  | _, [], _ => none
  | i, f :: fs, t =>
    match f t with
    | some cap => some (i, cap)
    | none => firstAux (i + 1) fs t

/-- First pattern (in priority order) matching a stripped span text. -/
def firstPatternMatch (t : List Char) : Option (Nat × List Char) :=
  firstAux 0 patMatchers t

/-! ## Data model -/

/-- A text span as delivered by `page.get_text("dict")`: its text and the
top `y` of its bounding box (`span["bbox"][1]`). -/
structure Span where
  text : String
  y0 : ℚ
  deriving DecidableEq, Repr

/-- One page: its spans in native iteration order, its height
(`page.rect.height`) and its raw text (`page.get_text()`). -/
structure PPage where
  spans : List Span
  height : ℚ
  rawText : String
  deriving DecidableEq, Repr

/-- An open document: pages plus the `doc.metadata` property fields used
by `_extract_basic_metadata` (absent keys read as `""`). -/
structure PDoc where
  pages : List PPage
  title : String
  author : String
  subject : String
  creator : String
  deriving DecidableEq, Repr

/-- A match record appended by `_find_question_patterns`. -/
structure QMatch where
  page : Nat
  y_pos : ℚ
  text : String
  pattern_used : String
  page_height : ℚ
  starter : String
  question_number : Nat
  deriving DecidableEq, Repr

/-- A segment dict built by `_determine_question_segments`. -/
structure Segment where
  page : Nat
  y_start : ℚ
  y_end : ℚ
  deriving DecidableEq, Repr

/-- A question dict built by `_determine_question_segments`. -/
structure Question where
  question_number : Nat
  starter : String
  segments : List Segment
  total_pages : Nat
  pattern_used : String
  deriving DecidableEq, Repr

/-- A metadata value: the dicts built here hold ints and strings. -/
inductive MVal where
  | nat (n : Nat)
  | str (s : String)
  deriving DecidableEq, Repr

/-- A Python dict of metadata, as an insertion-ordered association list;
`[]` is the empty dict `{}` (written textually as open-close braces). -/
def MetaDict := List (String × MVal)
  deriving DecidableEq

/-! ## Pattern matcher (`_find_question_patterns`) -/

/-- Per-span body of the scan loop: strip the span text, try the patterns
in priority order, and build the match record; `question_number` is
`int(group)` when the capture `isdigit()`, else `0`. -/
def spanToMatch (pn : Nat) (ph : ℚ) (sp : Span) : Option QMatch :=
  let t := pyStrip sp.text.toList
  match firstPatternMatch t with
  | none => none
  | some (idx, cap) =>
    some { page := pn
           y_pos := sp.y0
           text := t.asString
           pattern_used := questionPatternSrc.getD idx ""
           page_height := ph
           starter := t.asString
           question_number :=
             if cap ≠ [] && cap.all isAsciiDigit then natOfDigits cap else 0 }

/-- Sort key order of `all_matches.sort(key=lambda x: (x['page'], x['y_pos']))`:
the lexicographic order on the key tuple. -/
def lexLE (a b : QMatch) : Prop :=
  a.page < b.page ∨ (a.page = b.page ∧ a.y_pos ≤ b.y_pos)

instance : DecidableRel lexLE := fun a b => by unfold lexLE; infer_instance

/-- Embeds `_find_question_patterns`: scan every span of every page in order,
collect the per-span first matches, then sort by `(page, y_pos)`.
Python `list.sort` is stable; `List.insertionSort` is also stable, and a
stable sort for the total preorder `lexLE` is unique, so the two agree. -/
def findQuestionPatterns (d : PDoc) : List QMatch :=
  List.insertionSort lexLE
    (d.pages.enum.flatMap fun pp =>
      pp.2.spans.filterMap (spanToMatch pp.1 pp.2.height))

/-! ## Segment planner (`_determine_question_segments`) -/

/-- Python `range(a, b)`. -/
def pyRange (a b : Nat) : List Nat := List.range' a (b - a)

/-- Python `max(a, b)` on rationals (an executable `max`). -/
def pyMax (a b : ℚ) : ℚ := if a ≤ b then b else a

/-- The per-iteration segment computation of `_determine_question_segments`
for `current_match`, given `all_matches[i+1]` if it exists (the head of the
remaining sorted list) and the document page heights (`doc[p].rect.height`).
The branches are verbatim from the source:
same page, multi-page (head segment, middle full pages at the *current*
match's cached `page_height`, tail segment), and last question (to the end
of the current page, then every remaining page at its own height). -/
def mkSegments (cur : QMatch) (next? : Option QMatch) (doc : List ℚ) :
    List Segment :=
  match next? with
  | some next =>
    if cur.page = next.page then
      [{ page := cur.page
         y_start := pyMax 0 (cur.y_pos - 5)
         y_end := next.y_pos - 2 }]
    else
      [{ page := cur.page
         y_start := pyMax 0 (cur.y_pos - 5)
         y_end := cur.page_height }]
      ++ (pyRange (cur.page + 1) next.page).map
          (fun mp => { page := mp, y_start := 0, y_end := cur.page_height })
      ++ (if cur.page < next.page then
            [{ page := next.page, y_start := 0, y_end := next.y_pos - 2 }]
          else [])
  | none =>
    [{ page := cur.page
       y_start := pyMax 0 (cur.y_pos - 5)
       y_end := cur.page_height }]
    ++ (pyRange (cur.page + 1) doc.length).map
        (fun rp => { page := rp, y_start := 0, y_end := doc.getD rp 0 })

/-- The `for i, current_match in enumerate(all_matches)` loop, carrying the
running index `i`; the lookahead `all_matches[i+1]` of the sorted traversal
is the head of the remaining list.  `question_number` embeds the Python
truthiness fallback `current_match['question_number'] or (i + 1)`. -/
def planAux (doc : List ℚ) : Nat → List QMatch → List Question
  | _, [] => []
  | i, cur :: rest =>
    let segs := mkSegments cur rest.head? doc
    { question_number :=
        if cur.question_number = 0 then i + 1 else cur.question_number
      starter := cur.starter
      segments := segs
      total_pages := segs.length
      pattern_used := cur.pattern_used } :: planAux doc (i + 1) rest

/-- Embeds `_determine_question_segments(all_matches, doc)`; `doc` is the list of
page heights, all the planner reads from the document. -/
def determineQuestionSegments (ms : List QMatch) (doc : List ℚ) :
    List Question :=
  if ms.isEmpty then [] else planAux doc 0 ms

/-! ## Metadata extractor (`_extract_basic_metadata`)

The course patterns are the raw strings `Course[:\s]+([^\\n]+)` (and
`Subject`, `Paper` variants).  In a raw Python string `[^\\n]` is the
class excluding a literal backslash and the letter `n` — under
`re.IGNORECASE` also `N` — not the class excluding a newline. -/

/-- Membership in the `[:\s]` class. -/
def isColonSpace (c : Char) : Bool := c = ':' || isPySpace c

/-- Membership in the complemented class `[^\\n]` under `re.IGNORECASE`:
anything but a backslash, `n`, or `N`.  (A newline *is* in the class.) -/
def inCourseCapture (c : Char) : Bool := !(c = '\\' || c = 'n' || c = 'N')

/-- Backtracking for `[:\s]+` followed by `([^\\n]+)` : try run lengths
`k, k-1, …, 1` (greedy first); at the first viable length take the greedy
capture.  `rest` starts with at least `k` class characters. -/
def courseTryK : Nat → List Char → Option (List Char)
  | 0, _ => none
  | k + 1, rest =>
    match rest.drop (k + 1) with
    | c :: _ =>
      if inCourseCapture c then
        some ((rest.drop (k + 1)).takeWhile inCourseCapture)
      else courseTryK k rest
    | [] => courseTryK k rest

/-- Try `LIT[:\s]+([^\\n]+)` at the head of `s` (case-insensitive);
return capture group 1. -/
def courseMatchAt (lit : List Char) (s : List Char) : Option (List Char) :=
  match dropCI lit s with
  | none => none
  | some rest => courseTryK (rest.takeWhile isColonSpace).length rest

/-- Embeds `re.search`: leftmost position where the pattern matches. -/
def courseSearch (lit : List Char) : List Char → Option (List Char)
  | [] => none
  | c :: t =>
    match courseMatchAt lit (c :: t) with
    | some cap => some cap
    | none => courseSearch lit t

/-- The `for pattern in course_patterns` loop over the first page's raw
text: `Course`, `Subject`, `Paper` literals tried in order, first hit
wins; the capture is `group(1).strip()`. -/
def extractedCourse (text : List Char) : Option String :=
  match courseSearch "course".toList text with
  | some cap => some (pyStrip cap).asString
  | none =>
    match courseSearch "subject".toList text with
    | some cap => some (pyStrip cap).asString
    | none =>
      match courseSearch "paper".toList text with
      | some cap => some (pyStrip cap).asString
      | none => none

/-- Embeds `_extract_basic_metadata`: the five property fields, then
`extracted_course` from the first page when a course pattern hits. -/
def extractBasicMetadata (d : PDoc) : MetaDict :=
  [("page_count", MVal.nat d.pages.length),
   ("title", MVal.str d.title),
   ("author", MVal.str d.author),
   ("subject", MVal.str d.subject),
   ("creator", MVal.str d.creator)]
  ++ match d.pages with
     | [] => []
     | pg :: _ =>
       match extractedCourse pg.rawText.toList with
       | some c => [("extracted_course", MVal.str c)]
       | none => []

/-! ## Output paths (`extract_questions_from_pdf`, lines 57–79)

Paths are plain strings; `os.path.join(a, b)` for an absolute `a` and
relative `b` is string concatenation with a slash. -/

/-- Embeds `os.path.join` for the shapes used here. -/
def pathJoin (a b : String) : String := a ++ "/" ++ b

/-- Embeds `os.path.dirname` for the absolute paths used here: cut at the last
slash (degenerating to `/` at the root). -/
def dirName (s : String) : String :=
  let r := (s.toList.reverse.dropWhile (· ≠ '/'))
  match r with
  | '/' :: [] => "/"
  | '/' :: t => t.reverse.asString
  | _ => ""

/-- Embeds `os.path.basename`: the part after the last slash. -/
def baseName (s : String) : String :=
  (s.toList.reverse.takeWhile (· ≠ '/')).reverse.asString

/-- Embeds `os.path.splitext(...)[0]` for ordinary basenames: drop a final
extension whose dot is not the leading character. -/
def splitExtBase (s : String) : String :=
  let p := s.toList.reverse.span (· ≠ '.')
  match p.2 with
  | '.' :: pre => if pre.isEmpty then s else pre.reverse.asString
  | _ => s

/-- Embeds the substitution of filesystem-unsafe characters (the class of
angle brackets, colon, double quote, slashes, pipe, question mark and
star) by an underscore, on one character. -/
def sanChar (c : Char) : Char :=
  if c = '<' || c = '>' || c = ':' || c = '"' || c = '/' || c = '\\' ||
     c = '|' || c = '?' || c = '*' then '_' else c

/-- The filename sanitisation of lines 63–68: replace invalid characters,
replace spaces, truncate to 50 characters. -/
def sanitizeName (s : String) : String :=
  (((s.toList.map sanChar).map (fun c => if c = ' ' then '_' else c)).take
    50).asString

/-- The unique output directory of lines 57–73.  `filePath` is the
module's `__file__`; `project_root` is `dirname` applied three times, and
the caller-supplied `output_dir` does not appear. -/
def mkUniqueDir (filePath pdfPath ts : String) : String :=
  let projectTemp := pathJoin (dirName (dirName (dirName filePath))) "temp"
  pathJoin projectTemp
    ("questions_" ++ sanitizeName (splitExtBase (baseName pdfPath)) ++ "_"
      ++ ts)

/-- Python zero-padded two-digit formatting of a natural number. -/
def fmt02 (n : Nat) : String := if n < 10 then "0" ++ toString n else toString n

/-- The output path joined from the unique directory and the
zero-padded `question_NN.pdf` filename. -/
def questionPdfPath (dir : String) (n : Nat) : String :=
  dir ++ "/" ++ ("question_" ++ fmt02 n ++ ".pdf")

/-! ## Page compositor and orchestrator loop

`_create_question_pdf` runs under a `try`/`except` that converts any
exception into `False`.  The abstract filesystem is a state `σ` with a
`save` (the `new_doc.save(output_path)` call, `none` when it raises) and
an `exist` (the `os.path.exists(output_path)` check).  Every fallible
PyMuPDF call before the save (bad page index, bad rectangle,
`show_pdf_page` failure, `makedirs` failure) is collapsed into one
per-call outcome oracle `copyFail`. -/

/-- An abstract filesystem interface; no laws are assumed. -/
structure FSOps (σ : Type) where
  save : σ → String → Option σ
  exist : σ → String → Bool

/-- The concrete filesystem model: the set of written paths; `save`
always succeeds and records the path. -/
def listFS : FSOps (List String) :=
  { save := fun s p => some (p :: s)
    exist := fun s p => decide (p ∈ s) }

/-- Embeds `_create_question_pdf(doc, segments, output_path, num)`: `False` if
anything before or at the save raises, else save and report whether the
output file exists.  The `segments` argument only drives the copy loop,
whose outcome is the `copyFail` oracle. -/
def createQuestionPdf (F : FSOps σ) (copyFail : Bool) (_segs : List Segment)
    (s : σ) (path : String) : σ × Bool :=
  if copyFail then (s, false)
  else
    match F.save s path with
    | none => (s, false)
    | some s' => (s', F.exist s' path)

/-- The `for question in question_segments` loop of lines 75–93, carrying
the loop position (used to key the `copyFail` oracle) and the filesystem
state; a path is appended exactly when `_create_question_pdf` returned
`True`. -/
def composeLoopAux (F : FSOps σ) (copyFail : Nat → Bool) (dir : String) :
    Nat → List Question → σ → σ × List String
  | _, [], s => (s, [])
  | i, q :: rest, s =>
    let path := questionPdfPath dir q.question_number
    let r := createQuestionPdf F (copyFail i) q.segments s path
    let r2 := composeLoopAux F copyFail dir (i + 1) rest r.1
    (r2.1, if r.2 then path :: r2.2 else r2.2)

/-- Embeds `extract_questions_from_pdf(pdf_path, output_dir)`.  `filePath` is the
module's `__file__`, `ts` the `datetime.now()` timestamp string, and the
result also carries the final filesystem state.  Note that `outputDir`
is accepted and never read, exactly as in the source. -/
def extractQuestionsFromPdf (F : FSOps σ) (copyFail : Nat → Bool)
    (filePath ts : String) (d : PDoc) (pdfPath outputDir : String) (s : σ) :
    (List QMatch × List String × MetaDict) × σ :=
  let _ := outputDir
  let allMatches := findQuestionPatterns d
  if allMatches.isEmpty then (([], [], []), s)
  else
    let questions :=
      determineQuestionSegments allMatches (d.pages.map (·.height))
    let uniqueDir := mkUniqueDir filePath pdfPath ts
    let r := composeLoopAux F copyFail uniqueDir 0 questions s
    ((allMatches, r.2, extractBasicMetadata d), r.1)

/-- Path `p` lies inside directory `dir` (as a path-string prefix). -/
def liesWithin (dir p : String) : Bool :=
  (dir ++ "/").toList.isPrefixOf p.toList

/-! ## Concrete instances used by the claim theorems -/

/-- A one-page document whose single span starts with a numeric marker. -/
def c1Doc : PDoc :=
  { pages := [{ spans := [{ text := "1. Compute things", y0 := 100 }]
                height := 792
                rawText := "no course here" }]
    title := "", author := "", subject := "", creator := "" }

/-- The engine's result on `c1Doc` with `pdf_path = "/data/exam.pdf"` and
caller-supplied `output_dir = "/custom/out"`. -/
def c1Result : (List QMatch × List String × MetaDict) × List String :=
  extractQuestionsFromPdf listFS (fun _ => false)
    "/app/backend/services/document_processor.py" "20260101_120000_000000"
    c1Doc "/data/exam.pdf" "/custom/out" []

/-- Two markers on the same page at `y = 100` and `y = 300`. -/
def c2Matches : List QMatch :=
  [{ page := 0, y_pos := 100, text := "1.", pattern_used := "",
     page_height := 792, starter := "1.", question_number := 1 },
   { page := 0, y_pos := 300, text := "2.", pattern_used := "",
     page_height := 792, starter := "2.", question_number := 2 }]

/-- Two segments overlap: same page and overlapping `y` intervals. -/
def segOverlap (s t : Segment) : Prop :=
  s.page = t.page ∧ s.y_start < t.y_end ∧ t.y_start < s.y_end

instance (s t : Segment) : Decidable (segOverlap s t) := by
  unfold segOverlap; infer_instance

/-- Markers on page 0 (height 792) and page 2 (height 800), with the
intermediate page 1 of height 1000. -/
def c3Matches : List QMatch :=
  [{ page := 0, y_pos := 700, text := "1.", pattern_used := "",
     page_height := 792, starter := "1.", question_number := 1 },
   { page := 2, y_pos := 100, text := "2.", pattern_used := "",
     page_height := 800, starter := "2.", question_number := 2 }]

/-- Page heights for `c3Matches`. -/
def c3Heights : List ℚ := [792, 1000, 800]

/-- A one-page document with no recognizable question markers. -/
def c4Doc : PDoc :=
  { pages := [{ spans := [{ text := "Hello world", y0 := 100 }]
                height := 700
                rawText := "Hello" }]
    title := "t", author := "a", subject := "s", creator := "c" }

/-- Two markers whose parsed numbers are both 1. -/
def c5Matches : List QMatch :=
  [{ page := 0, y_pos := 10, text := "1. A", pattern_used := "",
     page_height := 792, starter := "1. A", question_number := 1 },
   { page := 0, y_pos := 300, text := "1. B", pattern_used := "",
     page_height := 792, starter := "1. B", question_number := 1 }]

/-- Two markers near the very top of the same page, at `y = 1` and `y = 2`:
a sorted match list the matcher can produce. -/
def c7Matches : List QMatch :=
  [{ page := 0, y_pos := 1, text := "1.", pattern_used := "",
     page_height := 792, starter := "1.", question_number := 1 },
   { page := 0, y_pos := 2, text := "2.", pattern_used := "",
     page_height := 792, starter := "2.", question_number := 2 }]

/-! ## Claim theorems: concrete evidence -/

/-- Claim C1: refuted by evaluation — the engine ignores the
caller-supplied `output_dir` entirely.  On a one-question document with
`output_dir = "/custom/out"`, the single returned output file
lies under the module-derived `<project_root>/temp` directory and not
under `output_dir`, contradicting the code's own docstring
("output_dir: Directory to save extracted questions"). -/
theorem c1_outputDir_ignored :
    c1Result.1.2.1 =
      ["/app/temp/questions_exam_20260101_120000_000000/question_01.pdf"]
    ∧ liesWithin "/custom/out"
        "/app/temp/questions_exam_20260101_120000_000000/question_01.pdf"
        = false
    ∧ liesWithin "/app/temp"
        "/app/temp/questions_exam_20260101_120000_000000/question_01.pdf"
        = true := by
  exact ⟨by decide, by decide, by decide⟩

/-- Claim C2: counterexample — for the sorted match list with two markers
on one page at `y = 100` and `y = 300`, the planner emits `(0, 95, 298)`
for question 1 and `(0, 295, 792)` for question 2, which overlap on
`[295, 298]`; so the planned Questions' segments are not overlap-free. -/
theorem c2_overlap_cex :
    ¬ List.Pairwise
        (fun q r : Question =>
          ∀ s ∈ q.segments, ∀ t ∈ r.segments, ¬ segOverlap s t)
        (determineQuestionSegments c2Matches [792]) := by
  have e : determineQuestionSegments c2Matches [792] =
      [{ question_number := 1, starter := "1.",
         segments := [{ page := 0, y_start := 95, y_end := 298 }],
         total_pages := 1, pattern_used := "" },
       { question_number := 2, starter := "2.",
         segments := [{ page := 0, y_start := 295, y_end := 792 }],
         total_pages := 1, pattern_used := "" }] := by
    simp only [determineQuestionSegments, c2Matches, planAux, mkSegments,
      List.head?, List.isEmpty, pyMax, pyRange, List.range']
    norm_num
  rw [e]
  intro hp
  rcases List.pairwise_cons.mp hp with ⟨h1, _⟩
  exact h1 _ (List.mem_cons_self _ _)
    { page := 0, y_start := 95, y_end := 298 } (List.mem_singleton.mpr rfl)
    { page := 0, y_start := 295, y_end := 792 } (List.mem_singleton.mpr rfl)
    ⟨rfl, by norm_num, by norm_num⟩

/-- Claim C3: the code evaluated at the failing input — with markers on
pages 0 and 2 and an intermediate page 1 of height 1000, the emitted
full-page segment for page 1 is `(1, 0, 792)`: its `y_end` is the
*current* match's cached `page_height` 792, not page 1's own height
1000 required by the claim. -/
theorem c3_middle_page_height :
    (((determineQuestionSegments c3Matches c3Heights).getD 0
          { question_number := 0, starter := "", segments := [],
            total_pages := 0, pattern_used := "" }).segments.getD 1
        { page := 0, y_start := 0, y_end := 0 })
      = { page := 1, y_start := 0, y_end := 792 }
    ∧ c3Heights.getD 1 0 = 1000
    ∧ (792 : ℚ) ≠ 1000 := by
  exact ⟨by decide, by decide, by decide⟩

/-- Claim C4: counterexample — on a document with zero matches the
orchestrator returns the literal empty dict as metadata, not the
section-4.4 document metadata: the returned dict is `[]` while
`_extract_basic_metadata` on the same document is non-empty (it always
carries `page_count`, `title`, `author`, `subject`, `creator`). -/
theorem c4_empty_metadata_cex :
    (extractQuestionsFromPdf listFS (fun _ => false)
        "/app/backend/services/document_processor.py" "ts" c4Doc
        "/data/a.pdf" "/out" []).1.2.2 = ([] : MetaDict)
    ∧ extractBasicMetadata c4Doc ≠ ([] : MetaDict) := by
  exact ⟨by decide, by decide⟩

/-- Claim C5: counterexample — two markers whose parsed numbers are both
non-zero and equal (both `1`) yield two Questions with display number 1,
so the output filenames `question_01.pdf` collide instead of being
pairwise distinct. -/
theorem c5_collision_cex :
    ((determineQuestionSegments c5Matches [792]).map
        (fun q => "question_" ++ fmt02 q.question_number ++ ".pdf"))
      = ["question_01.pdf", "question_01.pdf"]
    ∧ ¬ ((determineQuestionSegments c5Matches [792]).map
        (fun q => "question_" ++ fmt02 q.question_number ++ ".pdf")).Nodup
    := by
  exact ⟨by decide, by decide⟩

/-- Claim C7: counterexample — for the sorted match list with markers at
`y = 1` and `y = 2` on a 792-high page, the first planned segment is
`(0, 0, 0)` (the `max(0, y_pos - 5)` clamp meets `y_end = next.y_pos - 2`),
violating `y_start < y_end`. -/
theorem c7_degenerate_cex :
    ¬ (∀ q ∈ determineQuestionSegments c7Matches [792], ∀ s ∈ q.segments,
        s.y_start < s.y_end ∧ s.y_end ≤ ([792] : List ℚ).getD s.page 0) := by
  have e : determineQuestionSegments c7Matches [792] =
      [{ question_number := 1, starter := "1.",
         segments := [{ page := 0, y_start := 0, y_end := 0 }],
         total_pages := 1, pattern_used := "" },
       { question_number := 2, starter := "2.",
         segments := [{ page := 0, y_start := 0, y_end := 792 }],
         total_pages := 1, pattern_used := "" }] := by
    simp only [determineQuestionSegments, c7Matches, planAux, mkSegments,
      List.head?, List.isEmpty, pyMax, pyRange, List.range']
    norm_num
  rw [e]
  intro hall
  have h := (hall _ (List.mem_cons_self _ _)
    { page := 0, y_start := 0, y_end := 0 } (List.mem_singleton.mpr rfl)).1
  exact absurd h (by norm_num)

/-- Claim C9: the code evaluated at the failing input — in the raw string
`Course[:\s]+([^\\n]+)` the class `[^\\n]` excludes a backslash and the
letter `n`/`N`, so on a first page reading "Course: Linear Algebra" the
capture stops at the first `n`: `extracted_course` becomes "Li", not the
rest of the line "Linear Algebra" demanded by the claim's `(.+)`. -/
theorem c9_capture_class :
    extractedCourse "Course: Linear Algebra".toList = some "Li"
    ∧ some "Li" ≠ some "Linear Algebra" := by
  exact ⟨by decide, by decide⟩

/-! ## Claim theorems: the orchestrator's no-match path (C4) -/

/-- Claim C4 (amended): when the pattern matcher yields zero matches the
orchestrator returns `([], [], metadata)` where the metadata is the
literal empty dict (not the section-4.4 document metadata), leaving the
filesystem state untouched; as the result depends only on the document,
two runs return the identical (empty) metadata. -/
theorem c4_amended {σ : Type} (F : FSOps σ) (cf : Nat → Bool)
    (fp ts : String) (d : PDoc) (pp od : String) (s : σ)
    (h : findQuestionPatterns d = []) :
    extractQuestionsFromPdf F cf fp ts d pp od s = (([], [], []), s) := by
  simp [extractQuestionsFromPdf, h]

/-- Witness for `c4_amended` at the concrete no-marker document `c4Doc`. -/
theorem c4_amended_witness :
    findQuestionPatterns c4Doc = [] ∧
    extractQuestionsFromPdf listFS (fun _ => false) "/app/x.py" "ts" c4Doc
        "/data/a.pdf" "/out" ([] : List String) = (([], [], []), []) :=
  ⟨by decide,
   c4_amended listFS (fun _ => false) "/app/x.py" "ts" c4Doc "/data/a.pdf"
     "/out" [] (by decide)⟩

/-! ## Claim theorems: question numbering (C5) -/

/-- Indexed characterisation of the numbering rule of `planAux`. -/
theorem planAux_qn (doc : List ℚ) : ∀ (ms : List QMatch) (j i : Nat),
    ((planAux doc j ms).get? i).map Question.question_number
      = (ms.get? i).map
          (fun m => if m.question_number = 0 then j + i + 1
                    else m.question_number)
  | [], j, i => by simp [planAux]
  | cur :: rest, j, 0 => by simp [planAux]
  | cur :: rest, j, i + 1 => by
    simp only [planAux, List.get?_cons_succ]
    rw [planAux_qn doc rest (j + 1) i]
    simp only [show j + 1 + i = j + (i + 1) by omega]

/-- Claim C5 (amended): each planned Question's `question_number` is the
match's parsed number when non-zero and the 1-based ordinal `i + 1`
otherwise; the resulting numbers are *not* guaranteed pairwise distinct
(repeated parsed numbers collide, see the counterexample), so neither are
the `question_NN.pdf` filenames. -/
theorem c5_amended (ms : List QMatch) (doc : List ℚ) (i : Nat)
    (h : i < ms.length) :
    ((determineQuestionSegments ms doc).get? i).map Question.question_number
      = (ms.get? i).map
          (fun m => if m.question_number = 0 then i + 1
                    else m.question_number) := by
  have hne : ¬ (ms.isEmpty = true) := by
    cases ms with
    | nil => simp at h
    | cons a l => simp
  unfold determineQuestionSegments
  rw [if_neg hne]
  simpa using planAux_qn doc ms 0 i

/-- A marker whose captured group was non-numeric (`question_number = 0`). -/
def c5mW : QMatch :=
  { page := 0, y_pos := 50, text := "Part A", pattern_used := "",
    page_height := 792, starter := "Part A", question_number := 0 }

/-- Witness for `c5_amended`: the ordinal fallback gives number 1 to a
single zero-numbered match. -/
theorem c5_amended_witness :
    ((determineQuestionSegments [c5mW] [792]).get? 0).map
      Question.question_number = some 1 := by
  have := c5_amended [c5mW] [792] 0 (by decide)
  simpa [c5mW] using this

/-! ## Claim theorems: per-question failure isolation (C6) -/

/-- On the concrete filesystem model a non-failing compose call records
the path and reports success. -/
theorem createQuestionPdf_listFS_ok (segs : List Segment) (s : List String)
    (p : String) : createQuestionPdf listFS false segs s p = (p :: s, true) := by
  simp [createQuestionPdf, listFS]

/-- Unfolding of the compose loop on a non-empty question list. -/
theorem composeLoopAux_cons {σ : Type} (F : FSOps σ) (cf : Nat → Bool)
    (dir : String) (i : Nat) (q : Question) (rest : List Question) (s : σ) :
    composeLoopAux F cf dir i (q :: rest) s =
      ((composeLoopAux F cf dir (i + 1) rest
          (createQuestionPdf F (cf i) q.segments s
            (questionPdfPath dir q.question_number)).1).1,
        if (createQuestionPdf F (cf i) q.segments s
              (questionPdfPath dir q.question_number)).2 then
          questionPdfPath dir q.question_number ::
            (composeLoopAux F cf dir (i + 1) rest
              (createQuestionPdf F (cf i) q.segments s
                (questionPdfPath dir q.question_number)).1).2
        else
          (composeLoopAux F cf dir (i + 1) rest
            (createQuestionPdf F (cf i) q.segments s
              (questionPdfPath dir q.question_number)).1).2) := rfl

/-- The compose loop with the oracle failing exactly at position `k`
produces the paths of all questions except the one at index `k - i`. -/
theorem composeLoop_erase (dir : String) (k : Nat) :
    ∀ (qs : List Question) (i : Nat) (s : List String),
      (composeLoopAux listFS (fun j => decide (j = k)) dir i qs s).2
        = (if k < i then qs else qs.eraseIdx (k - i)).map
            (fun q => questionPdfPath dir q.question_number)
  | [], i, s => by simp [composeLoopAux]
  | q :: rest, i, s => by
    have hrec := composeLoop_erase dir k rest (i + 1)
    by_cases hik : i = k
    · subst hik
      simp [composeLoopAux_cons, createQuestionPdf, hrec,
        Nat.lt_succ_self, Nat.sub_self]
    · have hd : decide (i = k) = false := by simp [hik]
      rcases Nat.lt_or_ge k i with hki | hki
      · simp [composeLoopAux_cons, hd, createQuestionPdf_listFS_ok, hrec,
          hki, Nat.lt_succ_of_lt hki]
      · have hik' : i < k := Nat.lt_of_le_of_ne hki hik
        have h1 : ¬ k < i + 1 := by omega
        have h2 : ¬ k < i := by omega
        have he : k - i = (k - (i + 1)) + 1 := by omega
        simp [composeLoopAux_cons, hd, createQuestionPdf_listFS_ok, hrec,
          h1, h2, he]

/-- Claim C6: a Question whose compositing fails is excluded from
`output_files` while every other Question is still processed, in order:
with the save-always-succeeds filesystem model and the copy oracle
failing exactly at loop position `k`, the produced file list is exactly
the path list of all questions with index `k` erased.  Instantiated at
4 questions with question 2 (index 1) failing, `output_files` has the 3
paths of questions 1, 3 and 4.  (Exceptions inside `_create_question_pdf`
are absorbed by its `try`/`except`, modelled by the oracle outcome, so
none escape the orchestrator.) -/
theorem c6_failure_isolated :
    (∀ (dir : String) (k : Nat) (qs : List Question) (s : List String),
      (composeLoopAux listFS (fun j => decide (j = k)) dir 0 qs s).2
        = (qs.eraseIdx k).map (fun q => questionPdfPath dir q.question_number))
    ∧ (composeLoopAux listFS (fun j => decide (j = 1)) "/batch" 0
        [{ question_number := 1, starter := "1.", segments := [],
           total_pages := 0, pattern_used := "" },
         { question_number := 2, starter := "2.", segments := [],
           total_pages := 0, pattern_used := "" },
         { question_number := 3, starter := "3.", segments := [],
           total_pages := 0, pattern_used := "" },
         { question_number := 4, starter := "4.", segments := [],
           total_pages := 0, pattern_used := "" }] []).2
      = ["/batch/question_01.pdf", "/batch/question_03.pdf",
         "/batch/question_04.pdf"] := by
  constructor
  · intro dir k qs s
    have := composeLoop_erase dir k qs 0 s
    simpa using this
  · decide

/-! ## Claim theorems: pattern priority (C8) -/

/-- The always-failing matcher, used as the `getD` default. -/
def noMatcher : List Char → Option (List Char) := fun _ => none

/-- What the first-match loop guarantees: a hit at index `j` means the
matcher at `j` accepted and every earlier matcher rejected. -/
theorem firstAux_spec :
    ∀ (fs : List (List Char → Option (List Char))) (i : Nat) (t : List Char)
      (j : Nat) (cap : List Char), firstAux i fs t = some (j, cap) →
      i ≤ j ∧ (fs.getD (j - i) noMatcher) t = some cap ∧
        ∀ k, k < j - i → (fs.getD k noMatcher) t = none
  | [], i, t, j, cap => by simp [firstAux]
  | f :: fs, i, t, j, cap => by
    intro h
    unfold firstAux at h
    cases hf : f t with
    | some c =>
      rw [hf] at h
      have h1 : i = j ∧ c = cap := by
        have := Option.some.inj h
        exact ⟨congrArg Prod.fst this, congrArg Prod.snd this⟩
      obtain ⟨rfl, rfl⟩ := h1
      refine ⟨Nat.le_refl _, ?_, ?_⟩
      · simpa [Nat.sub_self, List.getD] using hf
      · intro k hk
        simp [Nat.sub_self] at hk
    | none =>
      rw [hf] at h
      obtain ⟨hij, hget, hnone⟩ := firstAux_spec fs (i + 1) t j cap h
      refine ⟨by omega, ?_, ?_⟩
      · have he : j - i = (j - (i + 1)) + 1 := by omega
        rw [he]
        simpa [List.getD] using hget
      · intro k hk
        cases k with
        | zero => simpa [List.getD] using hf
        | succ k' =>
          have hk' : k' < j - (i + 1) := by omega
          simpa [List.getD] using hnone k' hk'

/-- Claim C8: the six boundary patterns are tried in the fixed listed
order and the first hit wins — a recorded span match at pattern index `j`
means pattern `j` matched and every pattern before `j` did not, so no
span yields more than one match; in particular the span "1. Part A" is
recorded by the numeric pattern (index 0) with `question_number = 1`,
not as a Part marker. -/
theorem c8_first_pattern_wins :
    (∀ (t : List Char) (j : Nat) (cap : List Char),
      firstPatternMatch t = some (j, cap) →
        (patMatchers.getD j noMatcher) t = some cap ∧
        ∀ k, k < j → (patMatchers.getD k noMatcher) t = none)
    ∧ firstPatternMatch (pyStrip "1. Part A".toList) = some (0, ['1'])
    ∧ (spanToMatch 0 792 { text := "1. Part A", y0 := 100 }).map
        (fun m => (m.pattern_used, m.question_number))
      = some ("^(\\d+)[\\.\\)]\\s*", 1) := by
  refine ⟨fun t j cap h => ?_, by decide, by decide⟩
  obtain ⟨_, hget, hnone⟩ := firstAux_spec patMatchers 0 t j cap h
  exact ⟨by simpa using hget, fun k hk => by simpa using hnone k (by omega)⟩

/-- Witness for `c8_first_pattern_wins` at the concrete span "2) see":
the numeric pattern (index 0) is the recorded one. -/
theorem c8_witness :
    (patMatchers.getD 0 noMatcher) "2) see".toList = some ['2'] :=
  (c8_first_pattern_wins.1 "2) see".toList 0 ['2'] (by decide)).1

/-! ## Claim theorems: output files exist when appended (C10) -/

/-- Claim C10: `_create_question_pdf` reports success only if the saved
output file exists at that moment (first conjunct: whenever the call
returns `True`, the `os.path.exists` check on the post-save state is
true), and the orchestrator appends a path to `output_files` only on a
`True` result — so every entry of the returned list was observed to
exist, right after a successful save, when it was appended (second
conjunct, over any filesystem model and any outcome oracle). -/
theorem c10_exists_on_success :
    (∀ (σ : Type) (F : FSOps σ) (copyFail : Bool) (segs : List Segment)
      (s : σ) (path : String),
      (createQuestionPdf F copyFail segs s path).2 = true →
        F.exist (createQuestionPdf F copyFail segs s path).1 path = true)
    ∧ (∀ (σ : Type) (F : FSOps σ) (cf : Nat → Bool) (dir : String) (i : Nat)
        (qs : List Question) (s : σ) (p : String),
        p ∈ (composeLoopAux F cf dir i qs s).2 →
        ∃ s0 s1, F.save s0 p = some s1 ∧ F.exist s1 p = true) := by
  have hcreate : ∀ (σ : Type) (F : FSOps σ) (copyFail : Bool)
      (segs : List Segment) (s : σ) (path : String),
      (createQuestionPdf F copyFail segs s path).2 = true →
        ∃ s1, F.save s path = some s1 ∧
          (createQuestionPdf F copyFail segs s path).1 = s1 ∧
          F.exist s1 path = true := by
    intro σ F copyFail segs s path h
    unfold createQuestionPdf at h ⊢
    cases copyFail with
    | true => simp at h
    | false =>
      cases hs : F.save s path with
      | none => rw [hs] at h; simp at h
      | some s1 =>
        rw [hs] at h
        exact ⟨s1, rfl, rfl, h⟩
  constructor
  · intro σ F copyFail segs s path h
    obtain ⟨s1, _, he1, he2⟩ := hcreate σ F copyFail segs s path h
    rw [he1]; exact he2
  · intro σ F cf dir i qs
    induction qs generalizing i with
    | nil => intro s p hp; simp [composeLoopAux] at hp
    | cons q rest ih =>
      intro s p hp
      rw [composeLoopAux_cons] at hp
      by_cases hok : (createQuestionPdf F (cf i) q.segments s
          (questionPdfPath dir q.question_number)).2 = true
      · rw [if_pos hok] at hp
        rcases List.mem_cons.mp hp with rfl | hp'
        · obtain ⟨s1, hs1, _, he⟩ := hcreate σ F (cf i) q.segments s
            (questionPdfPath dir q.question_number) hok
          exact ⟨s, s1, hs1, he⟩
        · exact ih (i + 1) _ p hp'
      · rw [if_neg hok] at hp
        exact ih (i + 1) _ p hp
  
/-- Witness for `c10_exists_on_success` on the concrete filesystem model:
a successful compose call leaves the path existing in the new state. -/
theorem c10_witness :
    listFS.exist
      (createQuestionPdf listFS false [] [] "/batch/question_01.pdf").1
      "/batch/question_01.pdf" = true :=
  c10_exists_on_success.1 (List String) listFS false [] []
    "/batch/question_01.pdf" (by decide)

/-! ## Claim theorems: segment geometry (C2 and C7, amended) -/

/-- Hypotheses under which the planner's geometry is well behaved: the
marker sits at least 5 units below the top of its page (so the `-5`
margin does not clamp and the `-2` gap stays positive), within the common
page height `h`, its cached `page_height` is that common height, and its
page index is in range. -/
def MatchOK (h : ℚ) (n : Nat) (m : QMatch) : Prop :=
  5 ≤ m.y_pos ∧ m.y_pos ≤ h ∧ m.page_height = h ∧ m.page < n

/-- Global document interval of a segment when every page has height `h`:
page-local coordinates shifted by `page * h`. -/
def globIv (h : ℚ) (s : Segment) : ℚ × ℚ :=
  ((s.page : ℚ) * h + s.y_start, (s.page : ℚ) * h + s.y_end)

/-- An exact interval chain from `a` to `b`: every interval is nonempty
and starts exactly where its predecessor ended; the first starts at `a`,
the last ends at `b`. -/
def ExactChain : ℚ → List (ℚ × ℚ) → ℚ → Prop
  | a, [], b => a = b
  | a, iv :: t, b => iv.1 = a ∧ iv.1 < iv.2 ∧ ExactChain iv.2 t b

/-- A gapless chain from `a` to `b` in which an interval may also start
exactly 3 units before the point its predecessor reached (the planner's
overlap at a question boundary). -/
def Chain3 : ℚ → List (ℚ × ℚ) → ℚ → Prop
  | a, [], b => a = b
  | a, iv :: t, b => (iv.1 = a ∨ iv.1 = a - 3) ∧ iv.1 < iv.2 ∧ Chain3 iv.2 t b

/-- All planned segments of a question list in order, as global intervals. -/
def ivsOfQ (h : ℚ) (qs : List Question) : List (ℚ × ℚ) :=
  ((qs.map Question.segments).flatten).map (globIv h)

theorem ivsOfQ_cons (h : ℚ) (q : Question) (qs : List Question) :
    ivsOfQ h (q :: qs) = q.segments.map (globIv h) ++ ivsOfQ h qs := by
  simp [ivsOfQ]

theorem getD_replicate_of_lt (h : ℚ) :
    ∀ (n i : Nat), i < n → (List.replicate n h).getD i 0 = h
  | 0, i, hi => absurd hi (Nat.not_lt_zero i)
  | n + 1, 0, _ => rfl
  | n + 1, i + 1, hi => by
    have := getD_replicate_of_lt h n i (Nat.lt_of_succ_lt_succ hi)
    simpa [List.replicate_succ, List.getD_cons_succ] using this

theorem exactChain_append : ∀ (l1 l2 : List (ℚ × ℚ)) (a b c : ℚ),
    ExactChain a l1 b → ExactChain b l2 c → ExactChain a (l1 ++ l2) c
  | [], l2, a, b, c, h1, h2 => by
    have hab : a = b := h1
    rw [List.nil_append, hab]; exact h2
  | iv :: t, l2, a, b, c, h1, h2 => by
    obtain ⟨hs, hlt, hrest⟩ := h1
    exact ⟨hs, hlt, exactChain_append t l2 _ _ _ hrest h2⟩

theorem exactChain_chain3 : ∀ (l : List (ℚ × ℚ)) (a b : ℚ),
    ExactChain a l b → Chain3 a l b
  | [], _, _, hl => hl
  | _ :: t, _, _, hl => ⟨Or.inl hl.1, hl.2.1, exactChain_chain3 t _ _ hl.2.2⟩

theorem exactChain_head : ∀ (l : List (ℚ × ℚ)) (a b : ℚ), ExactChain a l b →
    l ≠ [] → l.head?.map Prod.fst = some a
  | [], _, _, _, hne => absurd rfl hne
  | iv :: t, a, b, hl, _ => by simp [hl.1]

/-- Glue an exactly-chained block onto a chain whose first interval
starts 3 units before the block's end. -/
theorem chain3_glue : ∀ (t l2 : List (ℚ × ℚ)) (e c b : ℚ),
    ExactChain e t c → l2.head?.map Prod.fst = some (c - 3) →
    Chain3 (c - 3) l2 b → Chain3 e (t ++ l2) b
  | [], l2, e, c, b, het, hhd, h3 => by
    have he : e = c := het
    subst he
    cases l2 with
    | nil => simp at hhd
    | cons iv t2 =>
      have h1 : iv.1 = e - 3 := by simpa using hhd
      obtain ⟨_, hlt, hrest⟩ := h3
      exact ⟨Or.inr h1, hlt, hrest⟩
  | iv :: t, l2, e, c, b, het, hhd, h3 =>
    ⟨Or.inl het.1, het.2.1, chain3_glue t l2 _ _ _ het.2.2 hhd h3⟩

/-- The run of full middle pages is exactly chained page by page. -/
theorem range'_exactChain (h : ℚ) (hh : 0 < h) : ∀ (k a : Nat),
    ExactChain ((a : ℚ) * h)
      ((List.range' a k).map
        (fun mp => globIv h { page := mp, y_start := 0, y_end := h }))
      (((a + k : Nat) : ℚ) * h)
  | 0, a => by simp [ExactChain]
  | k + 1, a => by
    rw [List.range'_succ, List.map_cons]
    refine ⟨by simp [globIv], by simp [globIv]; linarith, ?_⟩
    have hIH := range'_exactChain h hh k (a + 1)
    have h1 : (((a + 1 : Nat)) : ℚ) * h = (a : ℚ) * h + h := by
      push_cast; ring
    have h2 : a + 1 + k = a + (k + 1) := by omega
    rw [h2, h1] at hIH
    simpa [globIv] using hIH

/-- A non-last question's segments chain exactly from 5 above its marker
to 2 above the next marker, in global coordinates. -/
theorem mkSegments_chain_some (h : ℚ) (n : Nat) (cur next : QMatch)
    (hcur : MatchOK h n cur) (hnext : MatchOK h n next)
    (hlex : lexLE cur next) :
    ExactChain ((cur.page : ℚ) * h + cur.y_pos - 5)
      ((mkSegments cur (some next) (List.replicate n h)).map (globIv h))
      ((next.page : ℚ) * h + next.y_pos - 2) := by
  obtain ⟨hy5, hyh, hph, hpn⟩ := hcur
  obtain ⟨hy5', hyh', hph', hpn'⟩ := hnext
  have hh : 0 < h := by linarith
  have hpy : pyMax 0 (cur.y_pos - 5) = cur.y_pos - 5 := by
    unfold pyMax; rw [if_pos (by linarith)]
  by_cases hpage : cur.page = next.page
  · simp only [mkSegments, if_pos hpage, List.map_cons, List.map_nil]
    have hyy : cur.y_pos ≤ next.y_pos := by
      rcases hlex with hlt | ⟨_, hle⟩
      · exact absurd (hpage ▸ hlt) (lt_irrefl _)
      · exact hle
    refine ⟨?_, ?_, ?_⟩
    · simp [globIv, hpy]; ring
    · simp [globIv, hpy]; linarith
    · simp only [ExactChain, globIv, hpage]; ring
  · have hplt : cur.page < next.page := by
      rcases hlex with hlt | ⟨heq, _⟩
      · exact hlt
      · exact absurd heq hpage
    simp only [mkSegments, if_neg hpage, if_pos hplt]
    rw [List.map_append, List.map_append]
    simp only [List.map_map, Function.comp_def]
    refine exactChain_append _ _ _ (((next.page : Nat) : ℚ) * h) _
      (exactChain_append _ _ _ ((((cur.page + 1 : Nat)) : ℚ) * h) _ ?_ ?_) ?_
    · -- head segment
      simp only [List.map_cons, List.map_nil]
      refine ⟨?_, ?_, ?_⟩
      · simp [globIv, hpy]; ring
      · simp [globIv, hpy, hph]; linarith
      · simp only [ExactChain, globIv, hph]; push_cast; ring
    · -- middle full pages
      have hmap : (pyRange (cur.page + 1) next.page).map
            (fun mp => globIv h
              { page := mp, y_start := 0, y_end := cur.page_height })
          = (pyRange (cur.page + 1) next.page).map
            (fun mp => globIv h { page := mp, y_start := 0, y_end := h }) := by
        apply List.map_congr_left
        intro mp _
        rw [hph]
      rw [hmap]
      unfold pyRange
      have hrc := range'_exactChain h hh (next.page - (cur.page + 1))
        (cur.page + 1)
      have h2 : cur.page + 1 + (next.page - (cur.page + 1)) = next.page := by
        omega
      rw [h2] at hrc
      exact hrc
    · -- tail segment
      simp only [List.map_cons, List.map_nil]
      refine ⟨?_, ?_, ?_⟩
      · simp [globIv]
      · simp [globIv]; linarith
      · simp only [ExactChain, globIv]; ring

/-- The last question's segments chain exactly from 5 above its marker
to the end of the document. -/
theorem mkSegments_chain_none (h : ℚ) (n : Nat) (cur : QMatch)
    (hcur : MatchOK h n cur) :
    ExactChain ((cur.page : ℚ) * h + cur.y_pos - 5)
      ((mkSegments cur none (List.replicate n h)).map (globIv h))
      ((n : ℚ) * h) := by
  obtain ⟨hy5, hyh, hph, hpn⟩ := hcur
  have hh : 0 < h := by linarith
  have hpy : pyMax 0 (cur.y_pos - 5) = cur.y_pos - 5 := by
    unfold pyMax; rw [if_pos (by linarith)]
  simp only [mkSegments]
  rw [List.map_append]
  simp only [List.map_map, Function.comp_def]
  refine exactChain_append _ _ _ ((((cur.page + 1 : Nat)) : ℚ) * h) _ ?_ ?_
  · simp only [List.map_cons, List.map_nil]
    refine ⟨?_, ?_, ?_⟩
    · simp [globIv, hpy]; ring
    · simp [globIv, hpy, hph]; linarith
    · simp only [ExactChain, globIv, hph]; push_cast; ring
  · have hmap : (pyRange (cur.page + 1) (List.replicate n h).length).map
          (fun rp => globIv h
            { page := rp, y_start := 0,
              y_end := (List.replicate n h).getD rp 0 })
        = (pyRange (cur.page + 1) n).map
          (fun rp => globIv h { page := rp, y_start := 0, y_end := h }) := by
      rw [List.length_replicate]
      apply List.map_congr_left
      intro rp hrp
      have hrpn : rp < n := by
        unfold pyRange at hrp
        rcases List.mem_range'.mp hrp with ⟨j, hj, rfl⟩
        omega
      rw [getD_replicate_of_lt h n rp hrpn]
    rw [hmap]
    unfold pyRange
    have hrc := range'_exactChain h hh (n - (cur.page + 1)) (cur.page + 1)
    have h2 : cur.page + 1 + (n - (cur.page + 1)) = n := by omega
    rw [h2] at hrc
    exact hrc

/-- The planner never emits an empty segment list for a question. -/
theorem mkSegments_ne_nil (cur : QMatch) (next? : Option QMatch)
    (doc : List ℚ) : mkSegments cur next? doc ≠ [] := by
  cases next? with
  | none => simp [mkSegments]
  | some nx =>
    by_cases hpage : cur.page = nx.page <;> simp [mkSegments, hpage]

/-- The chained-coverage invariant of the whole plan, by induction along
the sorted match list: the flattened global intervals start exactly 5
above the first marker, run gaplessly (with the 3-unit overlap at each
question boundary) and end at the end of the document. -/
theorem planChain (h : ℚ) (n : Nat) :
    ∀ (ms : List QMatch) (cur : QMatch) (i : Nat),
      List.Chain' lexLE (cur :: ms) →
      (∀ m ∈ cur :: ms, MatchOK h n m) →
      ((ivsOfQ h (planAux (List.replicate n h) i (cur :: ms))).head?.map
          Prod.fst = some ((cur.page : ℚ) * h + cur.y_pos - 5)) ∧
      Chain3 ((cur.page : ℚ) * h + cur.y_pos - 5)
        (ivsOfQ h (planAux (List.replicate n h) i (cur :: ms)))
        ((n : ℚ) * h)
  | [], cur, i, hch, hok => by
    have hcur := hok cur (List.mem_cons_self _ _)
    have hec := mkSegments_chain_none h n cur hcur
    have hne : (mkSegments cur none (List.replicate n h)).map (globIv h)
        ≠ [] := by
      simpa using mkSegments_ne_nil cur none (List.replicate n h)
    constructor
    · rw [show planAux (List.replicate n h) i [cur]
          = [{ question_number :=
                 if cur.question_number = 0 then i + 1
                 else cur.question_number,
               starter := cur.starter,
               segments := mkSegments cur none (List.replicate n h),
               total_pages :=
                 (mkSegments cur none (List.replicate n h)).length,
               pattern_used := cur.pattern_used }] from rfl,
        ivsOfQ_cons]
      simp only [ivsOfQ, List.map_nil, List.flatten_nil, List.append_nil]
      exact exactChain_head _ _ _ hec hne
    · rw [show planAux (List.replicate n h) i [cur]
          = [{ question_number :=
                 if cur.question_number = 0 then i + 1
                 else cur.question_number,
               starter := cur.starter,
               segments := mkSegments cur none (List.replicate n h),
               total_pages :=
                 (mkSegments cur none (List.replicate n h)).length,
               pattern_used := cur.pattern_used }] from rfl,
        ivsOfQ_cons]
      simp only [ivsOfQ, List.map_nil, List.flatten_nil, List.append_nil]
      exact exactChain_chain3 _ _ _ hec
  | next :: rest, cur, i, hch, hok => by
    have hcur := hok cur (List.mem_cons_self _ _)
    have hnext := hok next (List.mem_cons_of_mem _ (List.mem_cons_self _ _))
    have hlex : lexLE cur next := (List.chain'_cons.mp hch).1
    have htail : List.Chain' lexLE (next :: rest) :=
      (List.chain'_cons.mp hch).2
    have hoktail : ∀ m ∈ next :: rest, MatchOK h n m := fun m hm =>
      hok m (List.mem_cons_of_mem _ hm)
    obtain ⟨ihhead, ihchain⟩ := planChain h n rest next (i + 1) htail hoktail
    have hec := mkSegments_chain_some h n cur next hcur hnext hlex
    have hstep : planAux (List.replicate n h) i (cur :: next :: rest)
        = { question_number :=
              if cur.question_number = 0 then i + 1 else cur.question_number,
            starter := cur.starter,
            segments := mkSegments cur (some next) (List.replicate n h),
            total_pages :=
              (mkSegments cur (some next) (List.replicate n h)).length,
            pattern_used := cur.pattern_used }
          :: planAux (List.replicate n h) (i + 1) (next :: rest) := rfl
    rw [hstep, ivsOfQ_cons]
    have hne : (mkSegments cur (some next) (List.replicate n h)).map
        (globIv h) ≠ [] := by
      simpa using mkSegments_ne_nil cur (some next) (List.replicate n h)
    have hshift : (next.page : ℚ) * h + next.y_pos - 5
        = ((next.page : ℚ) * h + next.y_pos - 2) - 3 := by ring
    rw [hshift] at ihhead ihchain
    constructor
    · obtain ⟨iv, t, he⟩ : ∃ iv t,
          (mkSegments cur (some next) (List.replicate n h)).map (globIv h)
            = iv :: t := by
        cases hl : (mkSegments cur (some next)
            (List.replicate n h)).map (globIv h) with
        | nil => exact absurd hl hne
        | cons iv t => exact ⟨iv, t, rfl⟩
      rw [he]
      rw [he] at hec
      simp [hec.1]
    · exact chain3_glue _ _ _ _ _ hec ihhead ihchain

/-- Claim C2 (amended): for a non-empty match list sorted by
`(page, y_pos)` whose markers all satisfy `MatchOK` (y at least 5 and at
most the common page height, cached heights correct, pages in range), the
planned segments — flattened in question order and read as global
intervals — form a gapless chain from `first.y_pos - 5` on the first
marker's page to the end of the document, in which each segment starts
exactly where the previous one ended except that each later Question's
first segment starts exactly 3 units earlier.  So the union covers
`[first.y_pos - 5, end]` with no gaps, but consecutive Questions'
segments overlap on a 3-unit band (the "no overlaps" half of the original
claim is refuted by `c2_overlap_cex`). -/
theorem c2_amended (h : ℚ) (n : Nat) (m0 : QMatch) (ms : List QMatch)
    (hch : List.Chain' lexLE (m0 :: ms))
    (hok : ∀ m ∈ m0 :: ms, MatchOK h n m) :
    Chain3 ((m0.page : ℚ) * h + m0.y_pos - 5)
      (ivsOfQ h (determineQuestionSegments (m0 :: ms) (List.replicate n h)))
      ((n : ℚ) * h) := by
  have := (planChain h n ms m0 0 hch hok).2
  simpa [determineQuestionSegments] using this

/-- Marker "1." at page 0, `y = 50` (spec's end-to-end scenario). -/
def c2mW1 : QMatch :=
  { page := 0, y_pos := 50, text := "1.", pattern_used := "",
    page_height := 800, starter := "1.", question_number := 1 }

/-- Marker "2." at page 1, `y = 400`. -/
def c2mW2 : QMatch :=
  { page := 1, y_pos := 400, text := "2.", pattern_used := "",
    page_height := 800, starter := "2.", question_number := 2 }

/-- Marker "3." at page 2, `y = 100`. -/
def c2mW3 : QMatch :=
  { page := 2, y_pos := 100, text := "3.", pattern_used := "",
    page_height := 800, starter := "3.", question_number := 3 }

/-- Witness for `c2_amended` at the three-marker scenario over three
800-high pages. -/
theorem c2_amended_witness :
    Chain3 ((c2mW1.page : ℚ) * 800 + c2mW1.y_pos - 5)
      (ivsOfQ 800 (determineQuestionSegments (c2mW1 :: [c2mW2, c2mW3])
        (List.replicate 3 800)))
      (((3 : Nat) : ℚ) * 800) := by
  refine c2_amended 800 3 c2mW1 [c2mW2, c2mW3] ?_ ?_
  · refine List.chain'_cons.mpr ⟨Or.inl ?_, List.chain'_cons.mpr
      ⟨Or.inl ?_, List.chain'_singleton _⟩⟩
    · decide
    · decide
  · intro m hm
    rcases List.mem_cons.mp hm with rfl | hm'
    · exact ⟨by norm_num [c2mW1], by norm_num [c2mW1],
        by norm_num [c2mW1], by norm_num [c2mW1]⟩
    rcases List.mem_cons.mp hm' with rfl | hm''
    · exact ⟨by norm_num [c2mW2], by norm_num [c2mW2],
        by norm_num [c2mW2], by norm_num [c2mW2]⟩
    rcases List.mem_cons.mp hm'' with rfl | hm'''
    · exact ⟨by norm_num [c2mW3], by norm_num [c2mW3],
        by norm_num [c2mW3], by norm_num [c2mW3]⟩
    · simp at hm'''

/-- Per-question segment bounds under `MatchOK` hypotheses. -/
theorem mkSegments_bounds (h : ℚ) (n : Nat) (cur : QMatch)
    (next? : Option QMatch) (hcur : MatchOK h n cur)
    (hnext : ∀ nx, next? = some nx → MatchOK h n nx ∧ lexLE cur nx) :
    ∀ s ∈ mkSegments cur next? (List.replicate n h),
      s.y_start < s.y_end ∧ s.y_end ≤ (List.replicate n h).getD s.page 0 := by
  obtain ⟨hy5, hyh, hph, hpn⟩ := hcur
  have hh : 0 < h := by linarith
  have hpy : pyMax 0 (cur.y_pos - 5) = cur.y_pos - 5 := by
    unfold pyMax; rw [if_pos (by linarith)]
  cases next? with
  | none =>
    intro s hs
    simp only [mkSegments, List.cons_append, List.nil_append,
      List.mem_cons] at hs
    rcases hs with rfl | hs2
    · constructor
      · show pyMax 0 (cur.y_pos - 5) < cur.page_height
        rw [hpy, hph]; linarith
      · show cur.page_height ≤ (List.replicate n h).getD cur.page 0
        rw [hph, getD_replicate_of_lt h n cur.page hpn]
    · rcases List.mem_map.mp hs2 with ⟨rp, hrp, rfl⟩
      have hrpn : rp < n := by
        unfold pyRange at hrp
        rw [List.length_replicate] at hrp
        rcases List.mem_range'.mp hrp with ⟨j, hj, rfl⟩
        omega
      constructor
      · show (0 : ℚ) < (List.replicate n h).getD rp 0
        rw [getD_replicate_of_lt h n rp hrpn]; exact hh
      · exact le_refl _
  | some nx =>
    obtain ⟨⟨hy5', hyh', hph', hpn'⟩, hlex⟩ := hnext nx rfl
    intro s hs
    by_cases hpage : cur.page = nx.page
    · simp only [mkSegments, if_pos hpage, List.mem_singleton] at hs
      subst hs
      have hyy : cur.y_pos ≤ nx.y_pos := by
        rcases hlex with hlt | ⟨_, hle⟩
        · exact absurd (hpage ▸ hlt) (lt_irrefl _)
        · exact hle
      constructor
      · show pyMax 0 (cur.y_pos - 5) < nx.y_pos - 2
        rw [hpy]; linarith
      · show nx.y_pos - 2 ≤ (List.replicate n h).getD cur.page 0
        rw [getD_replicate_of_lt h n cur.page hpn]; linarith
    · have hplt : cur.page < nx.page := by
        rcases hlex with hlt | ⟨heq, _⟩
        · exact hlt
        · exact absurd heq hpage
      simp only [mkSegments, if_neg hpage, if_pos hplt, List.cons_append,
        List.nil_append, List.mem_cons, List.mem_append] at hs
      rcases hs with rfl | hs23
      · constructor
        · show pyMax 0 (cur.y_pos - 5) < cur.page_height
          rw [hpy, hph]; linarith
        · show cur.page_height ≤ (List.replicate n h).getD cur.page 0
          rw [hph, getD_replicate_of_lt h n cur.page hpn]
      rcases hs23 with hs2 | hs3
      · rcases List.mem_map.mp hs2 with ⟨mp, hmp, rfl⟩
        have hmpn : mp < n := by
          unfold pyRange at hmp
          rcases List.mem_range'.mp hmp with ⟨j, hj, rfl⟩
          omega
        constructor
        · show (0 : ℚ) < cur.page_height
          rw [hph]; exact hh
        · show cur.page_height ≤ (List.replicate n h).getD mp 0
          rw [hph, getD_replicate_of_lt h n mp hmpn]
      · have hseq : s = Segment.mk nx.page 0 (nx.y_pos - 2) := by
          simpa using hs3
        subst hseq
        constructor
        · show (0 : ℚ) < nx.y_pos - 2
          linarith
        · show nx.y_pos - 2 ≤ (List.replicate n h).getD nx.page 0
          rw [getD_replicate_of_lt h n nx.page hpn']; linarith

/-- Segment bounds across the whole plan, by induction along the match
list. -/
theorem planAux_bounds (h : ℚ) (n : Nat) :
    ∀ (ms : List QMatch) (i : Nat),
      List.Chain' lexLE ms → (∀ m ∈ ms, MatchOK h n m) →
      ∀ q ∈ planAux (List.replicate n h) i ms, ∀ s ∈ q.segments,
        s.y_start < s.y_end ∧ s.y_end ≤ (List.replicate n h).getD s.page 0
  | [], i, _, _ => by simp [planAux]
  | cur :: rest, i, hch, hok => by
    intro q hq s hs
    rcases List.mem_cons.mp hq with rfl | hq'
    · refine mkSegments_bounds h n cur rest.head?
        (hok cur (List.mem_cons_self _ _)) ?_ s hs
      intro nx hnx
      cases rest with
      | nil => simp at hnx
      | cons r rs =>
        rcases (by simpa using hnx : r = nx) with rfl
        exact ⟨hok r (List.mem_cons_of_mem _ (List.mem_cons_self _ _)),
          (List.chain'_cons.mp hch).1⟩
    · exact planAux_bounds h n rest (i + 1) hch.tail
        (fun m hm => hok m (List.mem_cons_of_mem _ hm)) q hq' s hs

/-- Claim C7 (amended): for a match list sorted by `(page, y_pos)` whose
markers satisfy `MatchOK` (in particular `5 ≤ y_pos ≤ page height`, so
the clamp at the top of a page never degenerates a segment), every
planned Segment satisfies `y_start < y_end` and `y_end` at most the
height of the segment's own page.  (Without these hypotheses the
invariant fails, see `c7_degenerate_cex`.) -/
theorem c7_amended (h : ℚ) (n : Nat) (ms : List QMatch)
    (hch : List.Chain' lexLE ms) (hok : ∀ m ∈ ms, MatchOK h n m) :
    ∀ q ∈ determineQuestionSegments ms (List.replicate n h), ∀ s ∈ q.segments,
      s.y_start < s.y_end ∧ s.y_end ≤ (List.replicate n h).getD s.page 0 := by
  intro q hq
  cases ms with
  | nil => simp [determineQuestionSegments] at hq
  | cons m0 rest =>
    have he : determineQuestionSegments (m0 :: rest) (List.replicate n h)
        = planAux (List.replicate n h) 0 (m0 :: rest) := by
      simp [determineQuestionSegments]
    rw [he] at hq
    exact planAux_bounds h n (m0 :: rest) 0 hch hok q hq

/-- A single marker at page 0, `y = 100`, on a 792-high page. -/
def c7mW : QMatch :=
  { page := 0, y_pos := 100, text := "1.", pattern_used := "",
    page_height := 792, starter := "1.", question_number := 1 }

/-- Witness for `c7_amended`: the one planned segment `(0, 95, 792)` of
the single-marker document satisfies both bounds. -/
theorem c7_amended_witness :
    ({ page := 0, y_start := 95, y_end := 792 } : Segment).y_start <
      ({ page := 0, y_start := 95, y_end := 792 } : Segment).y_end ∧
    ({ page := 0, y_start := 95, y_end := 792 } : Segment).y_end ≤
      (List.replicate 1 (792 : ℚ)).getD
        ({ page := 0, y_start := 95, y_end := 792 } : Segment).page 0 := by
  have e : determineQuestionSegments [c7mW] (List.replicate 1 (792 : ℚ))
      = [Question.mk 1 "1." [Segment.mk 0 95 792] 1 ""] := by
    simp only [determineQuestionSegments, c7mW, planAux, mkSegments,
      List.head?, List.isEmpty, pyMax, pyRange, List.range']
    norm_num
  have hq : Question.mk 1 "1." [Segment.mk 0 95 792] 1 ""
      ∈ determineQuestionSegments [c7mW] (List.replicate 1 (792 : ℚ)) := by
    rw [e]; exact List.mem_singleton.mpr rfl
  exact c7_amended 792 1 [c7mW] (List.chain'_singleton _)
    (by intro m hm
        have hm' : m = c7mW := by simpa using hm
        subst hm'
        exact ⟨by norm_num [c7mW], by norm_num [c7mW],
          by norm_num [c7mW], by norm_num [c7mW]⟩)
    _ hq { page := 0, y_start := 95, y_end := 792 }
    (List.mem_singleton.mpr rfl)
